import Mathlib

/-!
# Verification of the `awsstepfuncs` state pipeline (`abstract_state.py`)

A shallow embedding of the abstract-state hierarchy of the repository:
JSON-like data values with Python truthiness, the restricted reference-path
language, the state configuration record built by the layered constructors,
the five-stage `simulate` pipeline of `AbstractResultSelectorState`, the
layered `compile`, the `>>` chaining operator and the state iterator, and a
small heap model for the in-place `ResultPath` merge.

`reference_path.py`, `errors.py` and the concrete state classes are not part
of the sources at hand; the definitions that depend on them are modelled from
the specification and are marked as such in their doc comments.  Everything
else is translated directly from `src/awsstepfuncs/abstract_state.py`.
-/

set_option autoImplicit false

namespace AwsStepFuncs

/-- JSON-like data values manipulated by the simulator (Python's `None`,
`bool`, `int`, `str`, `list`, `dict` as they occur in state input/output). -/
inductive Json where
  | null : Json
  | bool : Bool → Json
  | num : Int → Json
  | str : String → Json
  | arr : List Json → Json
  | obj : List (String × Json) → Json

/-- Python truthiness of a data value: `None`, `False`, `0`, `""`, `[]` and
`\x7b\x7d` are falsy, everything else is truthy. -/
def Json.falsy : Json → Bool
  | .null => true
  | .bool b => !b
  | .num n => n == 0
  | .str s => s.isEmpty
  | .arr xs => xs.isEmpty
  | .obj kvs => kvs.isEmpty

/-- First value bound to key `k` in an association list (Python `d[k]`
lookup on a dict represented as its ordered key/value pairs). -/
def lookupKey (k : String) : List (String × Json) → Option Json
  | [] => none
  | (k', v) :: rest => if k' = k then some v else lookupKey k rest

/-- Python dict assignment `d[k] = v`: overwrite the existing binding in
place, or append a new binding at the end. -/
def setKey (k : String) (v : Json) : List (String × Json) → List (String × Json)
  | [] => [(k, v)]
  | (k', v') :: rest => if k' = k then (k, v) :: rest else (k', v') :: setKey k v rest

/-- Python `x or \x7b\x7d`, as used in every `simulate` override:
a falsy execution output is replaced by the empty mapping. -/
def pyOr (x : Json) : Json :=
  if x.falsy then Json.obj [] else x

/-- A field segment accepted by the restricted reference-path grammar:
one or more ASCII letters (`[A-Za-z]+`). -/
def isFieldName (s : String) : Bool :=
  !s.data.isEmpty && s.data.all Char.isAlpha

/-- Whether a path string starts with the two characters `$.`. -/
def startsWithDollarDot (s : String) : Bool :=
  match s.data with
  | '$' :: '.' :: _ => true
  | _ => false

/-- The field segment of a `$.field` path: everything after the first two
characters. -/
def fieldPart (s : String) : String :=
  String.mk (s.data.drop 2)

/-- The last two characters of a string, Python `s[-2:]` (the whole string
when it is shorter than two characters). -/
def lastTwo (s : String) : List Char :=
  s.data.drop (s.data.length - 2)

/-- Python `s[:-2]`: the string without its last two characters. -/
def dropLastTwo (s : String) : String :=
  String.mk (s.data.take (s.data.length - 2))

/-- Modelled from the spec: `reference_path.py` is not among the sources.
The spec's ReferencePath grammar accepts exactly `$` alone or `$.` followed
by a field name matching `[A-Za-z]+`; every other path string fails
construction with a validation error. -/
def validRefPath (s : String) : Bool :=
  s = "$" || (startsWithDollarDot s && isFieldName (fieldPart s))

/-- Modelled from the spec: `reference_path.py` is not among the sources.
`ReferencePath.apply`: `$` returns the entire value; `$.field` performs a
mapping lookup; a missing key or a non-mapping value yields nothing
available (`None`), which callers interpret as falsy. -/
def refApply (path : String) (v : Json) : Json :=
  if path = "$" then v
  else
    match v with
    | Json.obj kvs => (lookupKey (fieldPart path) kvs).getD Json.null
    | _ => Json.null

/-- The configuration data held by an `AbstractResultSelectorState` after
construction: the fields set by `AbstractState.__init__` and each subclass
`__init__` in the hierarchy.  `result_path` is `none` when the constructor
argument was falsy (`None` or `""`); `parameters` holds `parameters or \x7b\x7d`;
`result_selector` holds the configured selector pairs (`[]` when `None`).
`state_type` is the class-level `state_type` tag of the concrete subclass,
and `next` is the optional `next_state` link, as an index into a state
store. -/
structure StateCfg where
  name : String
  comment : Option String
  input_path : String
  output_path : String
  result_path : Option String
  parameters : List (String × Json)
  result_selector : List (String × String)
  state_type : String
  next : Option Nat

/-- `AbstractResultSelectorState._validate_result_selector`: every key must
end with `".$"` (`key[-2:] == ".$"`) and every value must be a valid
reference path (`ReferencePath(reference_path)` raises otherwise);
pairs are checked in order and the first violation raises. -/
def validateResultSelector : List (String × String) → Except String Unit
  | [] => Except.ok ()
  | (k, p) :: rest =>
    if lastTwo k ≠ ['.', '$'] then
      Except.error "All resource selector keys must end with .$"
    else if !validRefPath p then
      Except.error "Unsupported JSONPath operator"
    else validateResultSelector rest

/-- `ReferencePath(result_path) if result_path else None` of
`AbstractResultPathState.__init__`: a falsy (`None` or empty) result path
is stored as `None`. -/
def normalizeResultPath : Option String → Option String
  | some s => if s = "" then none else some s
  | none => none

/-- Construction of an `AbstractResultSelectorState`, following the
`__init__` chain of `abstract_state.py` in MRO order: the state-name length
check of `AbstractState.__init__` (raising when `len(name) > 128`), then
`ReferencePath(input_path)` and `ReferencePath(output_path)` of
`AbstractInputPathOutputPathState.__init__`, then
`ReferencePath(result_path) if result_path else None` of
`AbstractResultPathState.__init__`, then `parameters or \x7b\x7d`, then
`_validate_result_selector` when the selector is truthy.  Every raised
error is an `AWSStepFuncsValueError`, returned here as `Except.error`. -/
def mkState (name : String) (comment : Option String)
    (input_path : String) (output_path : String)
    (result_path : Option String) (parameters : List (String × Json))
    (result_selector : List (String × String)) (state_type : String) :
    Except String StateCfg :=
  if name.length > 128 then
    Except.error "State name cannot exceed 128 characters"
  else if !validRefPath input_path then
    Except.error "Unsupported JSONPath operator in input path"
  else if !validRefPath output_path then
    Except.error "Unsupported JSONPath operator in output path"
  else
    let rp : Option String := normalizeResultPath result_path
    match rp with
    | some s =>
      if !validRefPath s then
        Except.error "Unsupported JSONPath operator in result path"
      else
        match validateResultSelector result_selector with
        | Except.error e => Except.error e
        | Except.ok _ =>
          Except.ok ⟨name, comment, input_path, output_path, rp, parameters,
            result_selector, state_type, none⟩
    | none =>
      match validateResultSelector result_selector with
      | Except.error e => Except.error e
      | Except.ok _ =>
        Except.ok ⟨name, comment, input_path, output_path, rp, parameters,
          result_selector, state_type, none⟩

/-- `AbstractInputPathOutputPathState._apply_input_path`. -/
def applyInputPath (cfg : StateCfg) (state_input : Json) : Json :=
  refApply cfg.input_path state_input

/-- `AbstractInputPathOutputPathState._apply_output_path`. -/
def applyOutputPath (cfg : StateCfg) (state_output : Json) : Json :=
  refApply cfg.output_path state_output

/-- The two failure modes of the result-path merge: the final `else` branch
(`assert False, "Should never happen"`), and the Python `TypeError` raised
by `state_input[result_key] = state_output` when the input is not a
mapping. -/
inductive RPErr where
  | assertFail : RPErr
  | typeErr : RPErr
  deriving Repr, DecidableEq

/-- The string the `$.field` regex `re.fullmatch` of `_apply_result_path`
sees: `str(self.result_path)`, which is `"None"` for `None`. -/
def rpStr : Option String → String
  | none => "None"
  | some s => s

/-- `re.fullmatch(r"\$\.([A-Za-z]+)", s)`: the captured field name when the
whole string matches, `none` otherwise. -/
def fullmatchField (s : String) : Option String :=
  if startsWithDollarDot s && isFieldName (fieldPart s) then some (fieldPart s) else none

/-- `AbstractResultPathState._apply_result_path`: keep the output when
`str(result_path) == "$"`, keep the input when `result_path is None`, move
the output under the matched field of the input when the path fully matches
`$.field`, and hit the `assert False` branch otherwise. -/
def applyResultPath (result_path : Option String) (state_input state_output : Json) :
    Except RPErr Json :=
  if rpStr result_path = "$" then Except.ok state_output
  else if result_path.isNone then Except.ok state_input
  else
    match fullmatchField (rpStr result_path) with
    | some f =>
      match state_input with
      | Json.obj kvs => Except.ok (Json.obj (setKey f state_output kvs))
      | _ => Except.error RPErr.typeErr
    | none => Except.error RPErr.assertFail

/-- `AbstractResultSelectorState._apply_result_selector`: build a new
mapping; for each `(key, reference_path)` pair, strip the trailing `".$"`
from the key and bind it to `ReferencePath(reference_path).apply(output)`
when that value is truthy, skipping the pair otherwise. -/
def applyResultSelector (sel : List (String × String)) (state_output : Json) :
    List (String × Json) :=
  go sel []
where
  /-- The loop of `_apply_result_selector`, accumulating `new_state_output`. -/
  go : List (String × String) → List (String × Json) → List (String × Json)
  | [], acc => acc
  | (key, path) :: rest, acc =>
    let extracted := refApply path state_output
    if extracted.falsy then go rest acc
    else go rest (setKey (dropLastTwo key) extracted acc)

/-- `AbstractResultSelectorState.simulate`: apply the input path, run
`_execute` with the falsy-to-`\x7b\x7d` fallback, apply the result selector when
one is configured, merge via the result path, and apply the output path. -/
def simulate (cfg : StateCfg) (exec : Json → Json) (state_input : Json) :
    Except RPErr Json :=
  let si := applyInputPath cfg state_input
  let so := pyOr (exec si)
  let so :=
    if cfg.result_selector.isEmpty then so
    else Json.obj (applyResultSelector cfg.result_selector so)
  match applyResultPath cfg.result_path si so with
  | Except.ok merged => Except.ok (applyOutputPath cfg merged)
  | Except.error e => Except.error e

/-- A store of state objects indexed by address, standing for the Python
object graph: `next` links are addresses into the store. -/
def Store := Nat → StateCfg

/-- The layered `compile` of the hierarchy, accreting keys in MRO order:
`AbstractState` (`Type`, truthy `Comment`), then `InputPath`/`OutputPath`
when the reference path is truthy, then `Next` (the successor's name) or
`End: true`, then `ResultPath` whenever `result_path is None or
result_path` holds (emitting `null` for `None`), then truthy `Parameters`,
then truthy `ResultSelector`.  The truthiness of a `ReferencePath` object
is modelled from the spec (`reference_path.py` is not among the sources):
the default `$` path is falsy and emits no key. -/
def compileState (σ : Store) (cfg : StateCfg) : List (String × Json) :=
  let c := [("Type", Json.str cfg.state_type)]
  let c :=
    match cfg.comment with
    | some s => if s.isEmpty then c else c ++ [("Comment", Json.str s)]
    | none => c
  let c := if cfg.input_path = "$" then c else c ++ [("InputPath", Json.str cfg.input_path)]
  let c := if cfg.output_path = "$" then c else c ++ [("OutputPath", Json.str cfg.output_path)]
  let c :=
    match cfg.next with
    | some j => c ++ [("Next", Json.str (σ j).name)]
    | none => c ++ [("End", Json.bool true)]
  let c :=
    match cfg.result_path with
    | none => c ++ [("ResultPath", Json.null)]
    | some s => if s = "$" then c else c ++ [("ResultPath", Json.str s)]
  let c := if cfg.parameters.isEmpty then c else c ++ [("Parameters", Json.obj cfg.parameters)]
  let c :=
    if cfg.result_selector.isEmpty then c
    else c ++ [("ResultSelector",
      Json.obj (cfg.result_selector.map (fun kp => (kp.1, Json.str kp.2))))]
  c

/-- `AbstractState.__rshift__`: `a >> b` sets `a.next_state = b` and
evaluates to `b`.  The mutation is store-passing: the state at address `a`
is updated in the returned store. -/
def rshift (σ : Store) (a b : Nat) : Store × Nat :=
  (fun i => if i = a then { σ a with next := some b } else σ i, b)

/-- `AbstractState.__iter__` / `__next__`: iteration yields the state
itself, then follows `next_state` links, raising `StopIteration` once the
current state is `None`.  The Python loop is unbounded; `fuel` bounds the
traversal in the embedding (any fuel larger than the chain length gives the
full enumeration). -/
def iterStates (σ : Store) : Nat → Nat → List Nat
  | 0, _ => []
  | fuel + 1, i =>
    i :: (match (σ i).next with
      | some j => iterStates σ fuel j
      | none => [])

/-- A heap of Python dict objects: each address holds the ordered key/value
pairs of one mapping.  Used to model the in-place mutation performed by
`_apply_result_path`. -/
def Heap := Nat → List (String × Json)

/-- Heap update at one address. -/
def writeHeap (H : Heap) (a : Nat) (d : List (String × Json)) : Heap :=
  fun i => if i = a then d else H i

/-- The `$.field` branch of `_apply_result_path` on a dict passed by
reference: `state_input[result_key] = state_output; output = state_input` —
the dict at address `a` is mutated in place and the very same address is
returned as the output. -/
def applyResultPathFieldRef (field : String) (H : Heap) (a : Nat) (out : Json) :
    Heap × Nat :=
  (writeHeap H a (setKey field out (H a)), a)

/-- The addressed slice of `simulate` for a state with `input_path = "$"`,
`output_path = "$"`, `result_path = "$.field"` and no result selector: the
caller's dict lives at heap address `a`; `input_path.apply` on `$` passes
the object through, `_execute` produces a value, and the result-path merge
mutates the dict at `a` and returns its address, which `output_path` on `$`
passes through as the state's output. -/
def simulateFieldRef (field : String) (exec : Json → Json) (H : Heap) (a : Nat) :
    Heap × Nat :=
  let so := pyOr (exec (Json.obj (H a)))
  applyResultPathFieldRef field H a so

/-- Modelled from the spec: `PassState` (its `_execute` is the identity) is
not among the sources; only its configuration record matters here.  The
first Pass state of the repository's chaining test, all pipeline fields at
their defaults. -/
def passState1 : StateCfg :=
  ⟨"Pass 1", none, "$", "$", some "$", [], [], "Pass", none⟩

/-- The second Pass state of the chaining test. -/
def passState2 : StateCfg :=
  ⟨"Pass 2", none, "$", "$", some "$", [], [], "Pass", none⟩

/-- The third Pass state of the chaining test. -/
def passState3 : StateCfg :=
  ⟨"Pass 3", none, "$", "$", some "$", [], [], "Pass", none⟩

/-- The object store holding the three Pass states, before any chaining:
addresses 0, 1, 2. -/
def chainStore0 : Store := fun i =>
  if i = 0 then passState1 else if i = 1 then passState2 else passState3

/-- `pass_state1 >> pass_state2 >> pass_state3`: `>>` is left-associative
and `a >> b` evaluates to `b`, so the chain is `rshift` at address 0
linking to 1, then `rshift` at the address the first returned, linking
to 2. -/
def chainStore : Store :=
  (rshift (rshift chainStore0 0 1).1 (rshift chainStore0 0 1).2 2).1

/-- The `Comment` portion of a compiled state: present only for a truthy
comment. -/
def commentSeg : Option String → List (String × Json)
  | some s => if s.isEmpty then [] else [("Comment", Json.str s)]
  | none => []

/-- The `InputPath`/`OutputPath` portion of a compiled state: present only
for a truthy (non-`$`) reference path. -/
def pathSeg (key : String) (p : String) : List (String × Json) :=
  if p = "$" then [] else [(key, Json.str p)]

/-- The `Next`-or-`End` portion of a compiled state. -/
def nextSeg (σ : Store) : Option Nat → List (String × Json)
  | some j => [("Next", Json.str (σ j).name)]
  | none => [("End", Json.bool true)]

/-- The `ResultPath` portion of a compiled state: `null` for an absent
result path, the path string for a truthy one, nothing for the default
`$`. -/
def rpSeg : Option String → List (String × Json)
  | none => [("ResultPath", Json.null)]
  | some s => if s = "$" then [] else [("ResultPath", Json.str s)]

/-- The `Parameters` portion of a compiled state. -/
def psSeg (ps : List (String × Json)) : List (String × Json) :=
  if ps.isEmpty then [] else [("Parameters", Json.obj ps)]

/-- The `ResultSelector` portion of a compiled state. -/
def selSeg (sel : List (String × String)) : List (String × Json) :=
  if sel.isEmpty then []
  else [("ResultSelector", Json.obj (sel.map (fun kp => (kp.1, Json.str kp.2))))]

/-! ## Supporting lemmas -/

/-- `simulate` as the composition of its stage functions. -/
theorem simulate_eq (cfg : StateCfg) (exec : Json → Json) (state_input : Json) :
    simulate cfg exec state_input =
      Except.map (applyOutputPath cfg)
        (applyResultPath cfg.result_path (applyInputPath cfg state_input)
          (if cfg.result_selector.isEmpty then
            pyOr (exec (applyInputPath cfg state_input))
          else
            Json.obj (applyResultSelector cfg.result_selector
              (pyOr (exec (applyInputPath cfg state_input)))))) := by
  unfold simulate
  dsimp only
  rcases applyResultPath cfg.result_path (applyInputPath cfg state_input)
      (if cfg.result_selector.isEmpty then
        pyOr (exec (applyInputPath cfg state_input))
      else
        Json.obj (applyResultSelector cfg.result_selector
          (pyOr (exec (applyInputPath cfg state_input))))) with e | m
  · rfl
  · rfl

/-- An `Except.map` is an error exactly when the mapped value is. -/
theorem except_map_eq_error {α β γ : Type} (f : β → γ) (x : Except α β) (e : α)
    (h : Except.map f x = Except.error e) : x = Except.error e := by
  cases x with
  | error a => simpa [Except.map] using h
  | ok b => simp [Except.map] at h

/-- Looking a key up after a `setKey`: the written key reads back the new
value, every other key is unaffected. -/
theorem lookupKey_setKey (k f : String) (v : Json) (d : List (String × Json)) :
    lookupKey k (setKey f v d) = if f = k then some v else lookupKey k d := by
  induction d with
  | nil => simp [setKey, lookupKey]
  | cons hd tl ih =>
    obtain ⟨k', v'⟩ := hd
    by_cases h1 : k' = f
    · subst h1
      simp only [setKey, if_pos rfl, lookupKey]
      by_cases h2 : k' = k
      · subst h2
        simp
      · simp [h2]
    · simp only [setKey, if_neg h1, lookupKey]
      by_cases h2 : k' = k
      · subst h2
        have hfk : ¬f = k' := fun hh => h1 hh.symm
        simp [hfk]
      · simp [h2, ih]

/-- `_validate_result_selector` succeeds exactly when every key ends in
`".$"` and every value is a valid reference path. -/
theorem validateResultSelector_ok_iff (sel : List (String × String)) :
    validateResultSelector sel = Except.ok () ↔
      ∀ kp ∈ sel, lastTwo kp.1 = ['.', '$'] ∧ validRefPath kp.2 = true := by
  induction sel with
  | nil => simp [validateResultSelector]
  | cons hd tl ih =>
    obtain ⟨k, p⟩ := hd
    by_cases h1 : lastTwo k = ['.', '$']
    · by_cases h2 : validRefPath p = true
      · simp [validateResultSelector, h1, h2, ih]
      · simp [validateResultSelector, h1, h2]
    · simp [validateResultSelector, h1]

/-- A valid reference path is either the identity `$` or fully matches the
`$.field` regex of `_apply_result_path`. -/
theorem validRefPath_cases (s : String) (h : validRefPath s = true) :
    s = "$" ∨ fullmatchField s = some (fieldPart s) := by
  unfold validRefPath at h
  rcases Bool.or_eq_true_iff.mp h with h' | h'
  · exact Or.inl (by simpa using h')
  · exact Or.inr (by simp [fullmatchField, Bool.and_eq_true_iff.mp h'])

/-- A state accepted by the constructor has a name of at most 128
characters, a validated result selector, and a result path that is either
absent or a valid reference path. -/
theorem mkState_ok_facts (name : String) (comment : Option String)
    (ip op : String) (rps : Option String) (ps : List (String × Json))
    (sel : List (String × String)) (st : String) (cfg : StateCfg)
    (h : mkState name comment ip op rps ps sel st = Except.ok cfg) :
    name.length ≤ 128 ∧ validateResultSelector sel = Except.ok () ∧
      cfg.result_selector = sel ∧
      (cfg.result_path = none ∨
        ∃ s, cfg.result_path = some s ∧ validRefPath s = true) := by
  unfold mkState at h
  by_cases h1 : name.length > 128
  · simp [h1] at h
  rcases h2 : validRefPath ip with _ | _
  · rw [h2] at h
    simp [h1] at h
  rcases h3 : validRefPath op with _ | _
  · rw [h3] at h
    simp [h1, h2] at h
  simp only [h1, h2, h3, Bool.not_true, Bool.false_eq_true, if_false, reduceIte] at h
  refine ⟨by omega, ?_⟩
  rcases hrp : normalizeResultPath rps with _ | s
  · rw [hrp] at h
    rcases hv : validateResultSelector sel with e | u
    · rw [hv] at h
      cases h
    · rw [hv] at h
      injection h with h'
      subst h'
      obtain ⟨⟩ := u
      exact ⟨rfl, rfl, Or.inl rfl⟩
  · rw [hrp] at h
    dsimp only at h
    rcases h4 : validRefPath s with _ | _
    · simp [h4] at h
    · simp only [h4, Bool.not_true, Bool.false_eq_true, reduceIte] at h
      rcases hv : validateResultSelector sel with e | u
      · rw [hv] at h
        cases h
      · rw [hv] at h
        injection h with h'
        subst h'
        obtain ⟨⟩ := u
        exact ⟨rfl, rfl, Or.inr ⟨s, rfl, h4⟩⟩

/-- The selector loop leaves a key untouched when every selector pair for
that key resolves to a falsy value (in particular when no pair mentions the
key at all). -/
theorem go_lookup_miss (O : Json) (k : String) (sel : List (String × String))
    (acc : List (String × Json))
    (h : ∀ kp ∈ sel, dropLastTwo kp.1 = k → (refApply kp.2 O).falsy = true) :
    lookupKey k (applyResultSelector.go O sel acc) = lookupKey k acc := by
  induction sel generalizing acc with
  | nil => rfl
  | cons hd tl ih =>
    obtain ⟨key, path⟩ := hd
    rcases hf : (refApply path O).falsy with _ | _
    · have hne : ¬dropLastTwo key = k := by
        intro hk
        have := h (key, path) (List.mem_cons_self _ _) hk
        rw [hf] at this
        cases this
      simp only [applyResultSelector.go, hf, Bool.false_eq_true, reduceIte]
      rw [ih _ (fun kp hkp => h kp (List.mem_cons_of_mem _ hkp))]
      rw [lookupKey_setKey]
      simp [hne]
    · simp only [applyResultSelector.go, hf, reduceIte]
      exact ih _ (fun kp hkp => h kp (List.mem_cons_of_mem _ hkp))

/-- The selector loop binds a stripped key to the resolved value of its
(unique, by the `Nodup` hypothesis) selector pair whenever that value is
truthy. -/
theorem go_lookup_hit (O : Json) (k : String) (sel : List (String × String))
    (acc : List (String × Json)) (key path : String)
    (hnd : (sel.map (fun kp => dropLastTwo kp.1)).Nodup)
    (hmem : (key, path) ∈ sel) (hk : dropLastTwo key = k)
    (hf : (refApply path O).falsy = false) :
    lookupKey k (applyResultSelector.go O sel acc) = some (refApply path O) := by
  induction sel generalizing acc with
  | nil => cases hmem
  | cons hd tl ih =>
    obtain ⟨k0, p0⟩ := hd
    rw [List.map_cons, List.nodup_cons] at hnd
    rcases List.mem_cons.mp hmem with heq | htl
    · injection heq with hkey hpath
      subst hkey
      subst hpath
      simp only [applyResultSelector.go, hf, Bool.false_eq_true, reduceIte]
      rw [hk]
      rw [go_lookup_miss O k tl _ ?_]
      · rw [lookupKey_setKey]
        simp
      · intro kp hkp hks
        exfalso
        apply hnd.1
        rw [← hk] at hks
        exact List.mem_map.mpr ⟨kp, hkp, hks⟩
    · rcases hf0 : (refApply p0 O).falsy with _ | _
      · simp only [applyResultSelector.go, hf0, Bool.false_eq_true, reduceIte]
        exact ih _ hnd.2 htl
      · simp only [applyResultSelector.go, hf0, reduceIte]
        exact ih _ hnd.2 htl

/-- `_apply_result_path` can hit the `assert False` branch only on a path
outside the reference-path grammar: for an absent or valid result path the
assertion is unreachable. -/
theorem applyResultPath_no_assert (rp : Option String) (I O : Json)
    (hrp : rp = none ∨ ∃ s, rp = some s ∧ validRefPath s = true) :
    applyResultPath rp I O ≠ Except.error RPErr.assertFail := by
  rcases hrp with h | ⟨s, hs, hv⟩
  · subst h
    simp [applyResultPath, rpStr]
  · subst hs
    rcases validRefPath_cases s hv with h | h
    · subst h
      simp [applyResultPath, rpStr]
    · by_cases hdol : s = "$"
      · subst hdol
        simp [applyResultPath, rpStr]
      · cases I <;> simp [applyResultPath, rpStr, hdol, h]

/-! ## Claim theorems -/

/-- C1: For every state supporting ResultSelector, `simulate(state_input,
resource_to_mock_fn)` applies its stages in this exact order: first the
InputPath filter on the raw input, then the state-specific `_execute` on
the filtered input (with the falsy-to-empty-mapping fallback), then the
ResultSelector filter only when a result selector is configured, then the
ResultPath merge of the post-InputPath input with the post-ResultSelector
output, and finally the OutputPath filter, whose result is the value
`simulate` returns. -/
theorem simulate_five_stage_order (cfg : StateCfg) (exec : Json → Json)
    (state_input : Json) :
    simulate cfg exec state_input =
      (let filtered := applyInputPath cfg state_input
       let executed := pyOr (exec filtered)
       let selected :=
         if cfg.result_selector.isEmpty then executed
         else Json.obj (applyResultSelector cfg.result_selector executed)
       Except.map (applyOutputPath cfg)
         (applyResultPath cfg.result_path filtered selected)) :=
  simulate_eq cfg exec state_input

/-- C9: Whenever `_execute` returns a falsy value, `simulate` substitutes
the empty mapping as the execution output before the ResultPath and
OutputPath stages are applied; in particular a pass-through state simulated
with the falsy input `0` returns the empty mapping rather than that
input. -/
theorem falsy_execute_substitutes_empty (cfg : StateCfg) (exec : Json → Json)
    (state_input : Json)
    (h : (exec (applyInputPath cfg state_input)).falsy = true) :
    simulate cfg exec state_input =
      Except.map (applyOutputPath cfg)
        (applyResultPath cfg.result_path (applyInputPath cfg state_input)
          (if cfg.result_selector.isEmpty then Json.obj []
           else Json.obj (applyResultSelector cfg.result_selector (Json.obj [])))) ∧
    simulate ⟨"Pass", none, "$", "$", some "$", [], [], "Pass", none⟩
      (fun x => x) (Json.num 0) = Except.ok (Json.obj []) := by
  refine ⟨?_, rfl⟩
  rw [simulate_eq]
  have hsub : pyOr (exec (applyInputPath cfg state_input)) = Json.obj [] := by
    unfold pyOr
    rw [h]
    rfl
  rw [hsub]

/-- Witness for C9 at a concrete state: an `_execute` returning `None`
makes `simulate` return the empty mapping. -/
theorem falsy_execute_substitutes_empty_witness :
    simulate ⟨"S", none, "$", "$", some "$", [], [], "Pass", none⟩
      (fun _ => Json.null) (Json.obj [("a", Json.num 1)]) =
      Except.ok (Json.obj []) := by
  have h := falsy_execute_substitutes_empty
    ⟨"S", none, "$", "$", some "$", [], [], "Pass", none⟩
    (fun _ => Json.null) (Json.obj [("a", Json.num 1)]) rfl
  rw [h.1]
  rfl

/-- C10: With `result_path = "$.field"`, the ResultPath merge writes the
execution output into the post-InputPath input mapping in place and
returns that same mapping (the same heap address, not a copy); through the
addressed `simulate` slice with `input_path = "$"`, the dictionary the
caller passed in is itself mutated to contain the new field, while all its
other keys and every other heap object are left unchanged. -/
theorem resultPath_in_place_mutation (field : String) (H : Heap) (a : Nat)
    (out : Json) (exec : Json → Json) :
    (applyResultPathFieldRef field H a out).2 = a ∧
    lookupKey field ((applyResultPathFieldRef field H a out).1 a) = some out ∧
    (∀ k, k ≠ field →
      lookupKey k ((applyResultPathFieldRef field H a out).1 a) =
        lookupKey k (H a)) ∧
    (∀ b, b ≠ a → (applyResultPathFieldRef field H a out).1 b = H b) ∧
    (simulateFieldRef field exec H a).2 = a ∧
    lookupKey field ((simulateFieldRef field exec H a).1 a) =
      some (pyOr (exec (Json.obj (H a)))) := by
  refine ⟨rfl, ?_, ?_, ?_, rfl, ?_⟩
  · show lookupKey field (writeHeap H a (setKey field out (H a)) a) = some out
    unfold writeHeap
    rw [if_pos rfl, lookupKey_setKey]
    simp
  · intro k hk
    show lookupKey k (writeHeap H a (setKey field out (H a)) a) = lookupKey k (H a)
    unfold writeHeap
    rw [if_pos rfl, lookupKey_setKey, if_neg (Ne.symm hk)]
  · intro b hb
    show writeHeap H a (setKey field out (H a)) b = H b
    unfold writeHeap
    rw [if_neg hb]
  · show lookupKey field
      (writeHeap H a (setKey field (pyOr (exec (Json.obj (H a)))) (H a)) a) = _
    unfold writeHeap
    rw [if_pos rfl, lookupKey_setKey]
    simp

/-- Witness for C10: merging output `7` under `"data"` into the dict at
address 0 returns address 0 and leaves key `"a"` unchanged. -/
theorem resultPath_in_place_mutation_witness :
    (applyResultPathFieldRef "data" (fun _ => [("a", Json.num 1)]) 0 (Json.num 7)).2 = 0 ∧
    lookupKey "data"
      ((applyResultPathFieldRef "data" (fun _ => [("a", Json.num 1)]) 0 (Json.num 7)).1 0) =
      some (Json.num 7) ∧
    lookupKey "a"
      ((applyResultPathFieldRef "data" (fun _ => [("a", Json.num 1)]) 0 (Json.num 7)).1 0) =
      some (Json.num 1) := by
  have h := resultPath_in_place_mutation "data" (fun _ => [("a", Json.num 1)]) 0
    (Json.num 7) (fun x => x)
  refine ⟨h.1, h.2.1, ?_⟩
  rw [h.2.2.1 "a" (by decide)]
  rfl

/-- C3 counterexample: a state constructed with the non-empty parameters
mapping `{"x": 42}` simulates exactly like the same state with no
parameters, returning the post-InputPath input untouched — no parameter
mapping is built or inserted between InputPath and `_execute`. -/
theorem parameters_not_applied_counterexample :
    mkState "Params" none "$" "$" (some "$") [("x", Json.num 42)] [] "Pass" =
      Except.ok ⟨"Params", none, "$", "$", some "$", [("x", Json.num 42)], [],
        "Pass", none⟩ ∧
    simulate ⟨"Params", none, "$", "$", some "$", [("x", Json.num 42)], [],
        "Pass", none⟩ (fun x => x) (Json.obj [("a", Json.num 1)]) =
      Except.ok (Json.obj [("a", Json.num 1)]) ∧
    simulate ⟨"Params", none, "$", "$", some "$", [("x", Json.num 42)], [],
        "Pass", none⟩ (fun x => x) (Json.obj [("a", Json.num 1)]) =
      simulate ⟨"Params", none, "$", "$", some "$", [], [], "Pass", none⟩
        (fun x => x) (Json.obj [("a", Json.num 1)]) :=
  ⟨rfl, rfl, rfl⟩

/-- C3 amended: in `abstract_state.py` the parameters mapping never feeds
`simulate` — the simulation result is independent of the configured
parameters, which are only emitted by `compile` (as a `Parameters` key when
non-empty). -/
theorem simulate_independent_of_parameters (σ : Store) (cfg : StateCfg)
    (ps : List (String × Json)) (exec : Json → Json) (state_input : Json) :
    simulate { cfg with parameters := ps } exec state_input =
      simulate cfg exec state_input ∧
    (ps ≠ [] →
      ("Parameters", Json.obj ps) ∈ compileState σ { cfg with parameters := ps }) := by
  constructor
  · rfl
  · intro hps
    have hps' : ps.isEmpty = false := by
      cases ps with
      | nil => cases hps rfl
      | cons a l => rfl
    dsimp only [compileState]
    rw [hps']
    simp only [Bool.false_eq_true, reduceIte]
    split
    · exact List.mem_append.mpr (Or.inr (by simp))
    · exact List.mem_append.mpr (Or.inl (List.mem_append.mpr (Or.inr (by simp))))

/-- Witness for the amended C3 at a concrete state with one parameter. -/
theorem simulate_independent_of_parameters_witness :
    simulate ⟨"P", none, "$", "$", some "$", [("x", Json.num 1)], [], "Pass", none⟩
        (fun x => x) Json.null =
      simulate ⟨"P", none, "$", "$", some "$", [], [], "Pass", none⟩
        (fun x => x) Json.null ∧
    ("Parameters", Json.obj [("x", Json.num 1)]) ∈
      compileState (fun _ => passState1)
        ⟨"P", none, "$", "$", some "$", [("x", Json.num 1)], [], "Pass", none⟩ := by
  have h := simulate_independent_of_parameters (fun _ => passState1)
    ⟨"P", none, "$", "$", some "$", [], [], "Pass", none⟩
    [("x", Json.num 1)] (fun x => x) Json.null
  exact ⟨h.1, h.2 (by simp)⟩

/-- C2: For every state with ResultPath support, given post-InputPath input
`I` and execution output `O`, the ResultPath merge returns `O` when
`result_path` is `$`; `I` (discarding `O`) when `result_path` is `None`;
and, when `result_path` is `$.field` with `field` matching `[A-Za-z]+`
(i.e. the regex fully matches), the mapping `I` with key `field` set to
`O`.  Any other result-path pattern is unreachable for a constructible
reference path, and trips the assertion failure rather than a user-facing
error. -/
theorem resultPath_merge_semantics (I O : Json) (kvs : List (String × Json)) :
    applyResultPath (some "$") I O = Except.ok O ∧
    applyResultPath none I O = Except.ok I ∧
    (∀ s f, fullmatchField s = some f →
      applyResultPath (some s) (Json.obj kvs) O =
        Except.ok (Json.obj (setKey f O kvs))) ∧
    (∀ s, validRefPath s = true →
      applyResultPath (some s) I O ≠ Except.error RPErr.assertFail) ∧
    (∀ s, s ≠ "$" → fullmatchField s = none →
      applyResultPath (some s) I O = Except.error RPErr.assertFail) := by
  refine ⟨?_, ?_, ?_, ?_, ?_⟩
  · simp [applyResultPath, rpStr]
  · simp [applyResultPath, rpStr]
  · intro s f h
    have hcond : (startsWithDollarDot s && isFieldName (fieldPart s)) = true := by
      by_cases hc : (startsWithDollarDot s && isFieldName (fieldPart s)) = true
      · exact hc
      · simp [fullmatchField, hc] at h
    have hne : s ≠ "$" := by
      intro he
      subst he
      have : startsWithDollarDot "$" = false := rfl
      rw [this] at hcond
      cases hcond
    simp [applyResultPath, rpStr, hne, h]
  · intro s hv
    exact applyResultPath_no_assert (some s) I O (Or.inr ⟨s, rfl, hv⟩)
  · intro s hne hf
    simp [applyResultPath, rpStr, hne, hf]

/-- Witness for C2: a concrete field merge, and the assertion failure at
the concrete out-of-grammar path `$.da2ta`. -/
theorem resultPath_merge_semantics_witness :
    applyResultPath (some "$.data") (Json.obj [("a", Json.num 1)]) (Json.num 7) =
      Except.ok (Json.obj [("a", Json.num 1), ("data", Json.num 7)]) ∧
    applyResultPath (some "$.da2ta") (Json.obj [("a", Json.num 1)]) (Json.num 7) =
      Except.error RPErr.assertFail := by
  have h := resultPath_merge_semantics (Json.obj [("a", Json.num 1)]) (Json.num 7)
    [("a", Json.num 1)]
  constructor
  · rw [h.2.2.1 "$.data" "data" (by decide)]
    rfl
  · exact h.2.2.2.2 "$.da2ta" (by decide) (by decide)

/-- C4: For every configured result selector with pairwise-distinct
stripped keys and every execution output `O`, the ResultSelector stage
binds exactly the keys (with the trailing `.$` stripped) whose reference
path resolves on `O` to a truthy value, to that value, omitting every pair
whose resolution is absent or falsy; in particular key `foo.$` with path
`$.bar` applied to `\x7bbar: 5, baz: 6\x7d` yields exactly `\x7bfoo: 5\x7d`. -/
theorem resultSelector_filter_semantics (sel : List (String × String)) (O : Json)
    (hnd : (sel.map (fun kp => dropLastTwo kp.1)).Nodup) :
    (∀ k v, lookupKey k (applyResultSelector sel O) = some v ↔
      ∃ kp, kp ∈ sel ∧ dropLastTwo kp.1 = k ∧ refApply kp.2 O = v ∧
        v.falsy = false) ∧
    applyResultSelector [("foo.$", "$.bar")]
        (Json.obj [("bar", Json.num 5), ("baz", Json.num 6)]) =
      [("foo", Json.num 5)] := by
  constructor
  · intro k v
    constructor
    · intro h
      by_cases hex : ∃ kp, kp ∈ sel ∧ dropLastTwo kp.1 = k ∧
          (refApply kp.2 O).falsy = false
      · obtain ⟨⟨key, path⟩, hmem, hk, hf⟩ := hex
        have hhit := go_lookup_hit O k sel [] key path hnd hmem hk hf
        unfold applyResultSelector at h
        rw [hhit] at h
        injection h with h'
        exact ⟨(key, path), hmem, hk, h', by rw [← h']; exact hf⟩
      · push_neg at hex
        have hmiss : ∀ kp ∈ sel, dropLastTwo kp.1 = k →
            (refApply kp.2 O).falsy = true := by
          intro kp hkp hkk
          have := hex kp hkp hkk
          simpa using this
        have := go_lookup_miss O k sel [] hmiss
        unfold applyResultSelector at h
        rw [this] at h
        simp [lookupKey] at h
    · rintro ⟨⟨key, path⟩, hmem, hk, hv, hf⟩
      have hf' : (refApply path O).falsy = false := by
        rw [hv]
        exact hf
      have := go_lookup_hit O k sel [] key path hnd hmem hk hf'
      unfold applyResultSelector
      rw [this, hv]
  · rfl

/-- Witness for C4 at the repository's own example selector. -/
theorem resultSelector_filter_semantics_witness :
    lookupKey "foo" (applyResultSelector [("foo.$", "$.bar")]
      (Json.obj [("bar", Json.num 5), ("baz", Json.num 6)])) =
      some (Json.num 5) ∧
    applyResultSelector [("foo.$", "$.bar")]
        (Json.obj [("bar", Json.num 5), ("baz", Json.num 6)]) =
      [("foo", Json.num 5)] := by
  have h := resultSelector_filter_semantics [("foo.$", "$.bar")]
    (Json.obj [("bar", Json.num 5), ("baz", Json.num 6)]) (by simp)
  refine ⟨?_, h.2⟩
  exact (h.1 "foo" (Json.num 5)).mpr
    ⟨("foo.$", "$.bar"), by simp, by decide, rfl, rfl⟩

/-- C5: Constructing a state with a name longer than 128 characters raises
`AWSStepFuncsValueError`; constructing a state whose result selector
contains a key not ending in `.$` or a value that is not a syntactically
valid reference path never succeeds; any name of length at most 128 is
accepted (with otherwise-default arguments); and the checks happen at
construction time only — the simulation of any successfully constructed
state can never reach the internal assertion, let alone a validation
error. -/
theorem construction_time_validation (name : String) (comment : Option String)
    (ip op : String) (rps : Option String) (ps : List (String × Json))
    (sel : List (String × String)) (st : String) :
    (name.length > 128 →
      mkState name comment ip op rps ps sel st =
        Except.error "State name cannot exceed 128 characters") ∧
    (∀ kp ∈ sel, (lastTwo kp.1 ≠ ['.', '$'] ∨ validRefPath kp.2 = false) →
      ∀ cfg, mkState name comment ip op rps ps sel st ≠ Except.ok cfg) ∧
    (name.length ≤ 128 →
      ∃ cfg, mkState name none "$" "$" (some "$") [] [] st = Except.ok cfg) ∧
    (∀ cfg, mkState name comment ip op rps ps sel st = Except.ok cfg →
      ∀ exec state_input,
        simulate cfg exec state_input ≠ Except.error RPErr.assertFail) := by
  refine ⟨?_, ?_, ?_, ?_⟩
  · intro hlen
    unfold mkState
    rw [if_pos hlen]
  · intro kp hmem hbad cfg h
    obtain ⟨-, hsel, -, -⟩ := mkState_ok_facts _ _ _ _ _ _ _ _ _ h
    have hall := (validateResultSelector_ok_iff sel).mp hsel kp hmem
    rcases hbad with hb | hb
    · exact hb hall.1
    · rw [hall.2] at hb
      cases hb
  · intro hlen
    refine ⟨⟨name, none, "$", "$", some "$", [], [], st, none⟩, ?_⟩
    unfold mkState
    rw [if_neg (by omega)]
    rfl
  · intro cfg h exec state_input hcontra
    obtain ⟨-, -, -, hrp⟩ := mkState_ok_facts _ _ _ _ _ _ _ _ _ h
    rw [simulate_eq] at hcontra
    exact applyResultPath_no_assert _ _ _ hrp (except_map_eq_error _ _ _ hcontra)

set_option maxRecDepth 4000 in
/-- Witness for C5: a 129-character name is rejected, a bad selector key is
rejected, the repository's own state name is accepted, and a constructed
state's simulation does not hit the assertion. -/
theorem construction_time_validation_witness :
    mkState (String.mk (List.replicate 129 'a')) none "$" "$" (some "$") [] [] "Pass" =
      Except.error "State name cannot exceed 128 characters" ∧
    (∀ cfg, mkState "S" none "$" "$" (some "$") []
      [("key", "$.a")] "Pass" ≠ Except.ok cfg) ∧
    (∃ cfg, mkState "Pass 1" none "$" "$" (some "$") [] [] "Pass" =
      Except.ok cfg) ∧
    simulate ⟨"S", none, "$", "$", some "$", [], [], "Pass", none⟩
      (fun x => x) Json.null ≠ Except.error RPErr.assertFail := by
  refine ⟨?_, ?_, ?_, ?_⟩
  · exact (construction_time_validation (String.mk (List.replicate 129 'a'))
      none "$" "$" (some "$") [] [] "Pass").1 (by decide)
  · exact (construction_time_validation "S" none "$" "$" (some "$") []
      [("key", "$.a")] "Pass").2.1 ("key", "$.a") (by simp) (Or.inl (by decide))
  · exact (construction_time_validation "Pass 1" none "$" "$" (some "$") []
      [] "Pass").2.2.1 (by decide)
  · exact (construction_time_validation "S" none "$" "$" (some "$") [] []
      "Pass").2.2.2 ⟨"S", none, "$", "$", some "$", [], [], "Pass", none⟩ rfl
      (fun x => x) Json.null


/-- Accretion step for the comment field. -/
theorem comment_append (c : List (String × Json)) (cm : Option String) :
    (match cm with
     | some s => if s.isEmpty then c else c ++ [("Comment", Json.str s)]
     | none => c) = c ++ commentSeg cm := by
  rcases cm with _ | s
  · simp [commentSeg]
  · dsimp only [commentSeg]
    split_ifs <;> simp

/-- Accretion step for a truthy reference-path field. -/
theorem path_append (key : String) (c : List (String × Json)) (p : String) :
    (if p = "$" then c else c ++ [(key, Json.str p)]) = c ++ pathSeg key p := by
  unfold pathSeg
  split_ifs <;> simp

/-- Accretion step for the `Next`/`End` field. -/
theorem next_append (σ : Store) (c : List (String × Json)) (nx : Option Nat) :
    (match nx with
     | some j => c ++ [("Next", Json.str (σ j).name)]
     | none => c ++ [("End", Json.bool true)]) = c ++ nextSeg σ nx := by
  rcases nx with _ | j <;> rfl

/-- Accretion step for the `ResultPath` field. -/
theorem rp_append (c : List (String × Json)) (rp : Option String) :
    (match rp with
     | none => c ++ [("ResultPath", Json.null)]
     | some s => if s = "$" then c else c ++ [("ResultPath", Json.str s)]) =
      c ++ rpSeg rp := by
  rcases rp with _ | s
  · rfl
  · dsimp only [rpSeg]
    split_ifs <;> simp

/-- Accretion step for the `Parameters` field. -/
theorem ps_append (c : List (String × Json)) (ps : List (String × Json)) :
    (if ps.isEmpty then c else c ++ [("Parameters", Json.obj ps)]) =
      c ++ psSeg ps := by
  unfold psSeg
  split_ifs <;> simp

/-- Accretion step for the `ResultSelector` field. -/
theorem sel_append (c : List (String × Json)) (sel : List (String × String)) :
    (if sel.isEmpty then c
     else c ++ [("ResultSelector",
       Json.obj (sel.map (fun kp => (kp.1, Json.str kp.2))))]) =
      c ++ selSeg sel := by
  unfold selSeg
  split_ifs <;> simp

/-- The layered `compile` as a flat concatenation of its field segments. -/
theorem compileState_eq (σ : Store) (cfg : StateCfg) :
    compileState σ cfg =
      [("Type", Json.str cfg.state_type)] ++ commentSeg cfg.comment ++
        pathSeg "InputPath" cfg.input_path ++
        pathSeg "OutputPath" cfg.output_path ++ nextSeg σ cfg.next ++
        rpSeg cfg.result_path ++ psSeg cfg.parameters ++
        selSeg cfg.result_selector := by
  unfold compileState
  dsimp only
  rw [sel_append, ps_append, rp_append, next_append, path_append, path_append,
    comment_append]

/-- A pair in the comment segment has key `Comment`. -/
theorem commentSeg_key (k : String) (v : Json) (cm : Option String)
    (h : (k, v) ∈ commentSeg cm) : k = "Comment" := by
  rcases cm with _ | s
  · cases h
  · dsimp only [commentSeg] at h
    split_ifs at h
    · cases h
    · simp at h
      exact h.1

/-- A pair in a path segment has that segment's key. -/
theorem pathSeg_key (key k : String) (v : Json) (p : String)
    (h : (k, v) ∈ pathSeg key p) : k = key := by
  unfold pathSeg at h
  split_ifs at h
  · cases h
  · simp at h
    exact h.1

/-- A pair in the next segment of a linked state has key `Next`. -/
theorem nextSeg_some_key (σ : Store) (k : String) (v : Json) (j : Nat)
    (h : (k, v) ∈ nextSeg σ (some j)) : k = "Next" := by
  simp [nextSeg] at h
  exact h.1

/-- A pair in the next segment of a terminal state has key `End`. -/
theorem nextSeg_none_key (σ : Store) (k : String) (v : Json)
    (h : (k, v) ∈ nextSeg σ none) : k = "End" := by
  simp [nextSeg] at h
  exact h.1

/-- A pair in the result-path segment has key `ResultPath`. -/
theorem rpSeg_key (k : String) (v : Json) (rp : Option String)
    (h : (k, v) ∈ rpSeg rp) : k = "ResultPath" := by
  rcases rp with _ | s
  · simp [rpSeg] at h
    exact h.1
  · dsimp only [rpSeg] at h
    split_ifs at h
    · cases h
    · simp at h
      exact h.1

/-- A pair in the parameters segment has key `Parameters`. -/
theorem psSeg_key (k : String) (v : Json) (ps : List (String × Json))
    (h : (k, v) ∈ psSeg ps) : k = "Parameters" := by
  unfold psSeg at h
  split_ifs at h
  · cases h
  · simp at h
    exact h.1

/-- A pair in the result-selector segment has key `ResultSelector`. -/
theorem selSeg_key (k : String) (v : Json) (sel : List (String × String))
    (h : (k, v) ∈ selSeg sel) : k = "ResultSelector" := by
  unfold selSeg at h
  split_ifs at h
  · cases h
  · simp at h
    exact h.1

/-- Membership in a compiled state decomposes into its field segments. -/
theorem compileState_key_mem (σ : Store) (cfg : StateCfg) (k : String) (v : Json)
    (h : (k, v) ∈ compileState σ cfg) :
    k = "Type" ∨ (k, v) ∈ commentSeg cfg.comment ∨
      (k, v) ∈ pathSeg "InputPath" cfg.input_path ∨
      (k, v) ∈ pathSeg "OutputPath" cfg.output_path ∨
      (k, v) ∈ nextSeg σ cfg.next ∨ (k, v) ∈ rpSeg cfg.result_path ∨
      (k, v) ∈ psSeg cfg.parameters ∨ (k, v) ∈ selSeg cfg.result_selector := by
  rw [compileState_eq] at h
  simp only [List.mem_append, List.mem_singleton] at h
  have htype : (k, v) = ("Type", Json.str cfg.state_type) → k = "Type" :=
    fun hh => congrArg Prod.fst hh
  tauto

/-- A state whose `next_state` is `None` iterates to just itself. -/
theorem iterStates_none (τ : Store) (i : Nat) (fuel : Nat)
    (h : (τ i).next = none) : iterStates τ (fuel + 1) i = [i] := by
  simp [iterStates, h]

/-- A state with a successor iterates to itself followed by the iteration
from the successor. -/
theorem iterStates_some (τ : Store) (i j : Nat) (fuel : Nat)
    (h : (τ i).next = some j) :
    iterStates τ (fuel + 1) i = i :: iterStates τ fuel j := by
  simp [iterStates, h]

/-- C6: `compile` emits a field only when it differs from its
absent/default value — an empty or `None` comment emits no `Comment` key,
an empty parameters mapping emits no `Parameters` key, and the default `$`
input/output paths emit no `InputPath`/`OutputPath` keys — except
ResultPath: a result path explicitly configured as absent emits
`ResultPath: null`. -/
theorem compile_default_field_omission (σ : Store) (cfg : StateCfg) :
    ((cfg.comment = none ∨ cfg.comment = some "") →
      ∀ v, ("Comment", v) ∉ compileState σ cfg) ∧
    (cfg.parameters = [] → ∀ v, ("Parameters", v) ∉ compileState σ cfg) ∧
    (cfg.input_path = "$" → ∀ v, ("InputPath", v) ∉ compileState σ cfg) ∧
    (cfg.output_path = "$" → ∀ v, ("OutputPath", v) ∉ compileState σ cfg) ∧
    (cfg.result_path = none → ("ResultPath", Json.null) ∈ compileState σ cfg) := by
  refine ⟨?_, ?_, ?_, ?_, ?_⟩
  · intro hcm v hmem
    rcases compileState_key_mem σ cfg _ _ hmem with h | h | h | h | h | h | h | h
    · exact absurd h (by decide)
    · rcases hcm with hc | hc <;> rw [hc] at h
      · cases h
      · dsimp only [commentSeg] at h
        split_ifs at h with hcond
        · cases h
        · exact hcond rfl
    · exact absurd (pathSeg_key _ _ _ _ h) (by decide)
    · exact absurd (pathSeg_key _ _ _ _ h) (by decide)
    · rcases hnx : cfg.next with _ | j <;> rw [hnx] at h
      · exact absurd (nextSeg_none_key _ _ _ h) (by decide)
      · exact absurd (nextSeg_some_key _ _ _ _ h) (by decide)
    · exact absurd (rpSeg_key _ _ _ h) (by decide)
    · exact absurd (psSeg_key _ _ _ h) (by decide)
    · exact absurd (selSeg_key _ _ _ h) (by decide)
  · intro hps v hmem
    rcases compileState_key_mem σ cfg _ _ hmem with h | h | h | h | h | h | h | h
    · exact absurd h (by decide)
    · exact absurd (commentSeg_key _ _ _ h) (by decide)
    · exact absurd (pathSeg_key _ _ _ _ h) (by decide)
    · exact absurd (pathSeg_key _ _ _ _ h) (by decide)
    · rcases hnx : cfg.next with _ | j <;> rw [hnx] at h
      · exact absurd (nextSeg_none_key _ _ _ h) (by decide)
      · exact absurd (nextSeg_some_key _ _ _ _ h) (by decide)
    · exact absurd (rpSeg_key _ _ _ h) (by decide)
    · rw [hps] at h
      simp [psSeg] at h
    · exact absurd (selSeg_key _ _ _ h) (by decide)
  · intro hip v hmem
    rcases compileState_key_mem σ cfg _ _ hmem with h | h | h | h | h | h | h | h
    · exact absurd h (by decide)
    · exact absurd (commentSeg_key _ _ _ h) (by decide)
    · rw [hip] at h
      simp [pathSeg] at h
    · exact absurd (pathSeg_key _ _ _ _ h) (by decide)
    · rcases hnx : cfg.next with _ | j <;> rw [hnx] at h
      · exact absurd (nextSeg_none_key _ _ _ h) (by decide)
      · exact absurd (nextSeg_some_key _ _ _ _ h) (by decide)
    · exact absurd (rpSeg_key _ _ _ h) (by decide)
    · exact absurd (psSeg_key _ _ _ h) (by decide)
    · exact absurd (selSeg_key _ _ _ h) (by decide)
  · intro hop v hmem
    rcases compileState_key_mem σ cfg _ _ hmem with h | h | h | h | h | h | h | h
    · exact absurd h (by decide)
    · exact absurd (commentSeg_key _ _ _ h) (by decide)
    · exact absurd (pathSeg_key _ _ _ _ h) (by decide)
    · rw [hop] at h
      simp [pathSeg] at h
    · rcases hnx : cfg.next with _ | j <;> rw [hnx] at h
      · exact absurd (nextSeg_none_key _ _ _ h) (by decide)
      · exact absurd (nextSeg_some_key _ _ _ _ h) (by decide)
    · exact absurd (rpSeg_key _ _ _ h) (by decide)
    · exact absurd (psSeg_key _ _ _ h) (by decide)
    · exact absurd (selSeg_key _ _ _ h) (by decide)
  · intro hrp
    rw [compileState_eq, hrp]
    simp [rpSeg]

/-- Witness for C6 at a state with default comment, paths and parameters
and an explicitly absent result path. -/
theorem compile_default_field_omission_witness :
    (∀ v, ("Comment", v) ∉ compileState (fun _ => passState1)
      ⟨"S", none, "$", "$", none, [], [], "Pass", none⟩) ∧
    (∀ v, ("Parameters", v) ∉ compileState (fun _ => passState1)
      ⟨"S", none, "$", "$", none, [], [], "Pass", none⟩) ∧
    (∀ v, ("InputPath", v) ∉ compileState (fun _ => passState1)
      ⟨"S", none, "$", "$", none, [], [], "Pass", none⟩) ∧
    (∀ v, ("OutputPath", v) ∉ compileState (fun _ => passState1)
      ⟨"S", none, "$", "$", none, [], [], "Pass", none⟩) ∧
    ("ResultPath", Json.null) ∈ compileState (fun _ => passState1)
      ⟨"S", none, "$", "$", none, [], [], "Pass", none⟩ := by
  have h := compile_default_field_omission (fun _ => passState1)
    ⟨"S", none, "$", "$", none, [], [], "Pass", none⟩
  exact ⟨h.1 (Or.inl rfl), h.2.1 rfl, h.2.2.1 rfl, h.2.2.2.1 rfl, h.2.2.2.2 rfl⟩

/-- C7: For every chain of states linked via `next_state`, each state's
compiled form contains `Next` equal to its successor's name when a
successor exists, and contains `End: true` (and no `Next` key) when it has
no successor; compiling the chained three Pass states yields the first two
with `Next` pointing at the correct successor and the last with
`End: true`. -/
theorem compile_next_end_chain (σ : Store) (cfg : StateCfg) :
    (∀ j, cfg.next = some j →
      ("Next", Json.str (σ j).name) ∈ compileState σ cfg ∧
      ∀ v, ("End", v) ∉ compileState σ cfg) ∧
    (cfg.next = none →
      ("End", Json.bool true) ∈ compileState σ cfg ∧
      ∀ v, ("Next", v) ∉ compileState σ cfg) ∧
    compileState chainStore (chainStore 0) =
      [("Type", Json.str "Pass"), ("Next", Json.str "Pass 2")] ∧
    compileState chainStore (chainStore 1) =
      [("Type", Json.str "Pass"), ("Next", Json.str "Pass 3")] ∧
    compileState chainStore (chainStore 2) =
      [("Type", Json.str "Pass"), ("End", Json.bool true)] := by
  refine ⟨?_, ?_, rfl, rfl, rfl⟩
  · intro j hj
    constructor
    · rw [compileState_eq, hj]
      simp [nextSeg]
    · intro v hmem
      rcases compileState_key_mem σ cfg _ _ hmem with h | h | h | h | h | h | h | h
      · exact absurd h (by decide)
      · exact absurd (commentSeg_key _ _ _ h) (by decide)
      · exact absurd (pathSeg_key _ _ _ _ h) (by decide)
      · exact absurd (pathSeg_key _ _ _ _ h) (by decide)
      · rw [hj] at h
        exact absurd (nextSeg_some_key _ _ _ _ h) (by decide)
      · exact absurd (rpSeg_key _ _ _ h) (by decide)
      · exact absurd (psSeg_key _ _ _ h) (by decide)
      · exact absurd (selSeg_key _ _ _ h) (by decide)
  · intro hn
    constructor
    · rw [compileState_eq, hn]
      simp [nextSeg]
    · intro v hmem
      rcases compileState_key_mem σ cfg _ _ hmem with h | h | h | h | h | h | h | h
      · exact absurd h (by decide)
      · exact absurd (commentSeg_key _ _ _ h) (by decide)
      · exact absurd (pathSeg_key _ _ _ _ h) (by decide)
      · exact absurd (pathSeg_key _ _ _ _ h) (by decide)
      · rw [hn] at h
        exact absurd (nextSeg_none_key _ _ _ h) (by decide)
      · exact absurd (rpSeg_key _ _ _ h) (by decide)
      · exact absurd (psSeg_key _ _ _ h) (by decide)
      · exact absurd (selSeg_key _ _ _ h) (by decide)

/-- Witness for C7 at the chained Pass states: the first compiled form
holds `Next: "Pass 2"`, the last holds `End: true` and no `Next`. -/
theorem compile_next_end_chain_witness :
    ("Next", Json.str "Pass 2") ∈ compileState chainStore (chainStore 0) ∧
    ("End", Json.bool true) ∈ compileState chainStore (chainStore 2) ∧
    (∀ v, ("Next", v) ∉ compileState chainStore (chainStore 2)) := by
  have h0 := compile_next_end_chain chainStore (chainStore 0)
  have h2 := compile_next_end_chain chainStore (chainStore 2)
  exact ⟨(h0.1 1 rfl).1, (h2.2.1 rfl).1, (h2.2.1 rfl).2⟩

/-- C8: The state graph is a singly linked sequence: `a >> b` sets
`a.next_state` to `b` (leaving every other state untouched) and evaluates
to `b`, so `a >> b >> c` builds the chain `a, b, c`; iterating from a
state enumerates that state followed by each successive `next_state` until
a state has no successor, after which iteration stops. -/
theorem rshift_chain_iteration (σ : Store) (a b : Nat) :
    (rshift σ a b).2 = b ∧
    ((rshift σ a b).1 a).next = some b ∧
    (∀ i, i ≠ a → (rshift σ a b).1 i = σ i) ∧
    (∀ τ : Store, ∀ i fuel, (τ i).next = none →
      iterStates τ (fuel + 1) i = [i]) ∧
    (∀ τ : Store, ∀ i j fuel, (τ i).next = some j →
      iterStates τ (fuel + 1) i = i :: iterStates τ fuel j) ∧
    (∀ fuel, iterStates chainStore (fuel + 3) 0 = [0, 1, 2]) ∧
    (chainStore 0).name = "Pass 1" ∧ (chainStore 1).name = "Pass 2" ∧
    (chainStore 2).name = "Pass 3" := by
  refine ⟨rfl, ?_, ?_, ?_, ?_, fun _ => rfl, rfl, rfl, rfl⟩
  · simp [rshift]
  · intro i hi
    simp [rshift, hi]
  · intro τ i fuel h
    exact iterStates_none τ i fuel h
  · intro τ i j fuel h
    exact iterStates_some τ i j fuel h

/-- Witness for C8: the first link of the test chain returns the
right-hand state, sets the pointer, leaves state 2 untouched, and the
full chain iterates to exactly the three states. -/
theorem rshift_chain_iteration_witness :
    (rshift chainStore0 0 1).2 = 1 ∧
    ((rshift chainStore0 0 1).1 0).next = some 1 ∧
    (rshift chainStore0 0 1).1 2 = chainStore0 2 ∧
    iterStates chainStore 3 0 = [0, 1, 2] := by
  have h := rshift_chain_iteration chainStore0 0 1
  exact ⟨h.1, h.2.1, h.2.2.1 2 (by decide), h.2.2.2.2.2.1 0⟩
